import Mathlib

/-!
Verification of the per-file extraction-and-ingestion pipeline of the
quotation-vault upload app (source: the single React component, functions
withTimeout, extractText, handleUpload, fetchQuotations).

Shallow embedding conventions:
* A settled JavaScript promise is modelled by `Promise α`: either
  `resolved` with a value or `rejected` with the thrown error's
  `.message` (an `Option String`, `none` when the thrown value has no
  message, so that the source's pattern (err as Error)?.message || fallback
  can be modelled faithfully).
* External engines (Tesseract OCR, mammoth, the file reader, Firebase
  storage/Firestore) are oracles: an environment record says how each call
  settles for the file at hand.  Promise.race order is an oracle Bool
  (which contender settles first).
* JavaScript number arithmetic in the single progress formula
  Math.round(((i+1)/n)*100) is modelled exactly over the rationals as
  floor(100(i+1)/n + 1/2), stored as the equivalent natural-number formula
  (200(i+1)+n)/(2n); Math.round ties away from the lower integer.
* JS string primitives are modelled on the character list of the string:
  s.startsWith(p), s.slice(0,n).
-/

namespace OSQuote

/-- Outcome of a settled JS promise; a rejection carries the error message
when one is available. -/
inductive Promise (α : Type) where
  | resolved : α → Promise α
  | rejected : Option String → Promise α
deriving DecidableEq

/-- JS truthiness fallback for strings: x || d (empty string and
undefined are falsy). -/
def jsOr (o : Option String) (d : String) : String :=
  match o with
  | some s => if s = "" then d else s
  | none => d

/-- JS s.startsWith(p). -/
def jsStartsWith (s p : String) : Bool :=
  p.data.isPrefixOf s.data

/-- JS s.slice(0, n). -/
def jsSlice (s : String) (n : Nat) : String :=
  String.mk (s.data.take n)

/-- Promise.race([p, q]) with the settle order given by the oracle
firstWins (true: p settles first). -/
def race {α : Type} (p q : Promise α) (firstWins : Bool) : Promise α :=
  if firstWins then p else q

/-- Source withTimeout(promise, ms = 10000): races the promise against a
delay that rejects with Error('Extraction timed out'); timeoutFirst is the
oracle saying the delay settles before the wrapped work. -/
def withTimeout {α : Type} (promise : Promise α) (timeoutFirst : Bool) : Promise α :=
  race promise (Promise.rejected (some "Extraction timed out")) (!timeoutFirst)

/-- A selected file: name and declared media type; the content is not
inspected by the pipeline itself, only handed to external engines, whose
behaviour is the per-file environment below. -/
structure UFile where
  name : String
  type : String
deriving DecidableEq

/-- Oracle for every external call extractText can make on one file:
Tesseract.recognize (payload models result.data.text), file.arrayBuffer(),
mammoth.extractRawText (payload models result.value), file.text(); each
with the oracle for its timeout race. -/
structure ExtractEnv where
  ocr : Promise (Option String)
  ocrTimeout : Bool
  bytes : Promise Unit
  bytesTimeout : Bool
  mammoth : Promise (Option String)
  mammothTimeout : Bool
  text : Promise String
  textTimeout : Bool
deriving DecidableEq

/-- The canonical Word-document MIME type tested by extractText. -/
def docxType : String :=
  "application/vnd.openxmlformats-officedocument.wordprocessingml.document"

/-- Source extractText(file): dispatch on the declared media type; an
await of a rejected promise rejects the whole call. -/
def extractText (e : ExtractEnv) (f : UFile) : Promise String :=
  if jsStartsWith f.type "image/" then
    match withTimeout e.ocr e.ocrTimeout with
    | .resolved t => .resolved (jsOr t "")
    | .rejected r => .rejected r
  else if f.type = "application/pdf" then
    .resolved "[PDF text extraction coming soon]"
  else if f.type = docxType then
    match withTimeout e.bytes e.bytesTimeout with
    | .rejected r => .rejected r
    | .resolved _ =>
      match withTimeout e.mammoth e.mammothTimeout with
      | .resolved v => .resolved (jsOr v "")
      | .rejected r => .rejected r
  else if jsStartsWith f.type "text/" then
    match withTimeout e.text e.textTimeout with
    | .resolved t => .resolved t
    | .rejected r => .rejected r
  else
    .resolved "[Unsupported file type]"

/-- The persisted entity (interface QuotationDoc in the source): the record
built at lines 87-94 and the shape fetched back from the collection. -/
structure QuotationDoc where
  id : Option String
  fileUrl : String
  filename : String
  type : String
  uploaded : String
  extractedText : String
  error : Option String
deriving DecidableEq

/-- The external Firestore collection the sequencer inserts into. -/
structure World where
  db : List QuotationDoc
deriving DecidableEq

/-- The component state touched by the pipeline: processing, progress,
step, error, files, quotations (the inert search box is presentation
only). -/
structure AppState where
  processing : Bool
  progress : Nat
  step : String
  error : Option String
  files : List UFile
  quotations : List QuotationDoc
deriving DecidableEq

/-- Oracle for the external calls of one loop iteration's upload phase:
uploadBytes, getDownloadURL, addDoc, and the ISO timestamp taken by
new Date().toISOString() when the record is built. -/
structure FileEnv where
  xenv : ExtractEnv
  upload : Promise Unit
  url : Promise String
  insert : Promise Unit
  now : String
deriving DecidableEq

/-- Environment for one whole run: a per-index file environment and the
outcome of the getDocs call of the post-loop fetchQuotations. -/
structure RunEnv where
  envs : Nat → FileEnv
  fetch : Promise Unit

/-- Math.round(((i+1)/n)*100) of source line 100, with number arithmetic
taken exactly: floor(100*k/n + 1/2) written as a natural-number formula
(k is i+1, n the batch length). -/
def mathRound100 (k n : Nat) : Nat :=
  (200 * k + n) / (2 * n)

/-- The try block of source lines 83-95: uploadBytes, then getDownloadURL,
then the record literal, then addDoc; the first rejection aborts the block
with that rejection's message. -/
def uploadStep (e : FileEnv) (f : UFile) (extractedText errorMsg : String) :
    Except (Option String) QuotationDoc :=
  match e.upload with
  | .rejected r => .error r
  | .resolved _ =>
    match e.url with
    | .rejected r => .error r
    | .resolved u =>
      let record : QuotationDoc :=
        { id := none
          fileUrl := u
          filename := f.name
          type := f.type
          uploaded := e.now
          extractedText := jsSlice extractedText 600
          error := if errorMsg = "" then none else some errorMsg }
      match e.insert with
      | .rejected r => .error r
      | .resolved _ => .ok record

/-- Source lines 82-100: set the uploading step label, run the upload try
block, on catch set the batch-level error banner, and finally set the
progress percentage (line 100 runs on both outcomes). -/
def uploadPhase (e : FileEnv) (f : UFile) (i n : Nat)
    (extractedText errorMsg : String) (st : AppState) (w : World) :
    AppState × World :=
  let st1 := { st with step := "Uploading: " ++ f.name }
  match uploadStep e f extractedText errorMsg with
  | .ok q =>
      ({ st1 with progress := mathRound100 (i + 1) n }, ⟨w.db ++ [q]⟩)
  | .error r =>
      ({ st1 with
          error := some ("Upload failed: " ++ f.name ++ ": " ++ jsOr r "Upload failed")
          progress := mathRound100 (i + 1) n }, w)

/-- One loop iteration (source lines 71-100): fresh extractedText = '' and
errorMsg = '', the extraction try/catch, then the upload phase. -/
def processFile (e : FileEnv) (f : UFile) (i n : Nat)
    (stw : AppState × World) : AppState × World :=
  let st := { stw.1 with step := "Extracting text: " ++ f.name }
  match extractText e.xenv f with
  | .resolved t => uploadPhase e f i n t "" st stw.2
  | .rejected r =>
      let m := jsOr r "Extraction failed"
      uploadPhase e f i n "" m
        { st with error := some ("Extraction failed: " ++ f.name ++ ": " ++ m) }
        stw.2

/-- The for loop of handleUpload: files strictly in order, i the running
index, n the fixed batch length. -/
def runLoop (envs : Nat → FileEnv) (n : Nat) :
    Nat → List UFile → AppState × World → AppState × World
  | _, [], stw => stw
  | i, f :: fs, stw => runLoop envs n (i + 1) fs (processFile (envs i) f i n stw)

/-- The display comparator of source line 111: the JS sort comparator
(a, b) => b.uploaded.localeCompare(a.uploaded) orders by uploaded
descending. -/
def uploadedDesc (a b : QuotationDoc) : Prop :=
  b.uploaded ≤ a.uploaded

instance : DecidableRel uploadedDesc :=
  fun a b => inferInstanceAs (Decidable (b.uploaded ≤ a.uploaded))

instance : IsTotal QuotationDoc uploadedDesc :=
  ⟨fun a b => le_total b.uploaded a.uploaded⟩

instance : IsTrans QuotationDoc uploadedDesc :=
  ⟨fun _ _ _ h1 h2 => le_trans h2 h1⟩

/-- data.sort with the descending-uploaded comparator, modelled by a
stable comparison sort. -/
def sortByUploadedDesc (l : List QuotationDoc) : List QuotationDoc :=
  List.insertionSort uploadedDesc l

/-- Source fetchQuotations (lines 108-112): getDocs over the collection
(its settling given by the fetch oracle), then replace quotations with the
sorted snapshot; a getDocs rejection is not caught and escapes as the
second component. -/
def fetchQuotations (fetch : Promise Unit) (db : List QuotationDoc)
    (st : AppState) : AppState × Option (Option String) :=
  match fetch with
  | .rejected r => (st, some r)
  | .resolved _ => ({ st with quotations := sortByUploadedDesc db }, none)

/-- Result of one handleUpload invocation: final component state, final
collection contents, and the rejection that escaped to the caller when one
did (none when the returned promise resolved). -/
structure RunResult where
  state : AppState
  world : World
  uncaught : Option (Option String)
deriving DecidableEq

/-- The state set up by source lines 68-70 before the loop starts. -/
def startState (st0 : AppState) : AppState :=
  { st0 with processing := true, progress := 0, error := none }

/-- Source handleUpload (lines 67-106): prologue, the per-file loop, the
epilogue setProcessing(false); setFiles([]); setStep(''), and the awaited
fetchQuotations, which is outside every try/catch. -/
def handleUpload (renv : RunEnv) (st0 : AppState) (w0 : World) : RunResult :=
  let stw := runLoop renv.envs st0.files.length 0 st0.files (startState st0, w0)
  let stDone := { stw.1 with processing := false, files := [], step := "" }
  let fq := fetchQuotations renv.fetch stw.2.db stDone
  ⟨fq.1, stw.2, fq.2⟩

/-- The JS variable extractedText as it stands after the extraction
try/catch of lines 73-81 ('' when extractText rejected). -/
def extractedOf (e : FileEnv) (f : UFile) : String :=
  match extractText e.xenv f with
  | .resolved t => t
  | .rejected _ => ""

/-- The JS variable errorMsg as it stands after the extraction try/catch
of lines 73-81. -/
def errorMsgOf (e : FileEnv) (f : UFile) : String :=
  match extractText e.xenv f with
  | .resolved _ => ""
  | .rejected r => jsOr r "Extraction failed"

/-- The record iteration i contributes to the collection, as a function of
that iteration's own environment and file alone. -/
def recordOf (e : FileEnv) (f : UFile) : Option QuotationDoc :=
  match uploadStep e f (extractedOf e f) (errorMsgOf e f) with
  | .ok q => some q
  | .error _ => none

/-- The records a run appends to the collection, file by file. -/
def dbDelta (envs : Nat → FileEnv) : Nat → List UFile → List QuotationDoc
  | _, [] => []
  | i, f :: fs => (recordOf (envs i) f).toList ++ dbDelta envs (i + 1) fs

/-- The upload try block failed: uploadBytes, getDownloadURL or addDoc
rejected. -/
def uploadStepFails (e : FileEnv) : Prop :=
  (∃ r, e.upload = Promise.rejected r) ∨
    (∃ r, e.url = Promise.rejected r) ∨ (∃ r, e.insert = Promise.rejected r)

/-- The loop state right after the iteration for the k-th file (1-based k)
of a run over st0.files: the loop restricted to the first k files. -/
def afterProcessing (renv : RunEnv) (st0 : AppState) (w0 : World) (k : Nat) :
    AppState × World :=
  runLoop renv.envs st0.files.length 0 (st0.files.take k) (startState st0, w0)

end OSQuote

namespace OSQuote

/-- Concrete inputs used by witnesses: a plain-text file whose every
external call succeeds. -/
def cFile : UFile := ⟨"a.txt", "text/plain"⟩

def cPdf : UFile := ⟨"q.pdf", "application/pdf"⟩

def cDocx : UFile := ⟨"huge.docx", docxType⟩

def cXEnv : ExtractEnv :=
  ⟨.resolved none, false, .resolved (), false, .resolved none, false,
    .resolved "hello world", false⟩

/-- Word-document extraction whose conversion exceeds the timeout. -/
def cXEnvMammothTimeout : ExtractEnv :=
  ⟨.resolved none, false, .resolved (), false, .resolved (some "ignored"), true,
    .resolved "", false⟩

/-- Text extraction that rejects with message boom. -/
def cXEnvFail : ExtractEnv :=
  ⟨.resolved none, false, .resolved (), false, .resolved none, false,
    .rejected (some "boom"), false⟩

def cFEnv : FileEnv :=
  ⟨cXEnv, .resolved (), .resolved "https://x/u", .resolved (),
    "2026-01-02T00:00:00.000Z"⟩

/-- Same upload collaborators, but the extraction fails. -/
def cFEnvExtractFail : FileEnv :=
  ⟨cXEnvFail, .resolved (), .resolved "https://x/u", .resolved (),
    "2026-01-02T00:00:00.000Z"⟩

/-- The addDoc call rejects. -/
def cFEnvBadInsert : FileEnv :=
  ⟨cXEnv, .resolved (), .resolved "https://x/u",
    .rejected (some "permission denied"), "2026-01-02T00:00:00.000Z"⟩

def cState : AppState := ⟨false, 0, "", none, [cFile], []⟩

def cWorld : World := ⟨[]⟩

/-- A run whose fetch succeeds. -/
def cRun : RunEnv := ⟨fun _ => cFEnv, .resolved ()⟩

/-- A run whose post-loop getDocs rejects. -/
def cRunBad : RunEnv := ⟨fun _ => cFEnv, .rejected (some "network error")⟩

/-- The record the all-success run inserts. -/
def cRec : QuotationDoc :=
  ⟨none, "https://x/u", "a.txt", "text/plain", "2026-01-02T00:00:00.000Z",
    "hello world", none⟩

theorem jsOr_ne_empty (r : Option String) (d : String) (hd : d ≠ "") :
    jsOr r d ≠ "" := by
  rcases r with _ | s
  · simpa [jsOr] using hd
  · by_cases hs : s = "" <;> simp [jsOr, hs, hd]

theorem jsSlice_length_le (s : String) (n : Nat) : (jsSlice s n).length ≤ n := by
  show (s.data.take n).length ≤ n
  exact List.length_take_le _ _

theorem uploadStep_ok (e : FileEnv) (f : UFile) (t m : String) (q : QuotationDoc)
    (h : uploadStep e f t m = .ok q) :
    ∃ u, e.upload = .resolved () ∧ e.url = .resolved u ∧ e.insert = .resolved () ∧
      q = ⟨none, u, f.name, f.type, e.now, jsSlice t 600,
            if m = "" then none else some m⟩ := by
  rcases hu : e.upload with u0 | r
  · rcases hl : e.url with u | r
    · rcases hi : e.insert with v | r
      · refine ⟨u, rfl, rfl, rfl, ?_⟩
        simp [uploadStep, hu, hl, hi] at h
        exact h.symm
      · simp [uploadStep, hu, hl, hi] at h
    · simp [uploadStep, hu, hl] at h
  · simp [uploadStep, hu] at h

theorem processFile_world (e : FileEnv) (f : UFile) (i n : Nat)
    (st : AppState) (w : World) :
    (processFile e f i n (st, w)).2 = ⟨w.db ++ (recordOf e f).toList⟩ := by
  rcases hx : extractText e.xenv f with t | r <;>
    simp only [processFile, hx, uploadPhase, recordOf, extractedOf, errorMsgOf]
  · rcases hu : uploadStep e f t "" with q | r2 <;> simp [hu]
  · rcases hu : uploadStep e f "" (jsOr r "Extraction failed") with q | r2 <;> simp [hu]

theorem processFile_progress (e : FileEnv) (f : UFile) (i n : Nat)
    (st : AppState) (w : World) :
    (processFile e f i n (st, w)).1.progress = mathRound100 (i + 1) n := by
  rcases hx : extractText e.xenv f with t | r <;>
    simp only [processFile, hx, uploadPhase]
  · rcases hu : uploadStep e f t "" with q | r2 <;> simp [hu]
  · rcases hu : uploadStep e f "" (jsOr r "Extraction failed") with q | r2 <;> simp [hu]

theorem runLoop_db (envs : Nat → FileEnv) (n : Nat) (fs : List UFile) :
    ∀ (i : Nat) (st : AppState) (w : World),
      (runLoop envs n i fs (st, w)).2 = ⟨w.db ++ dbDelta envs i fs⟩ := by
  induction fs with
  | nil => intro i st w; simp [runLoop, dbDelta]
  | cons f fs ih =>
      intro i st w
      rcases hp : processFile (envs i) f i n (st, w) with ⟨st2, w2⟩
      have hw2 : w2 = ⟨w.db ++ (recordOf (envs i) f).toList⟩ := by
        have := processFile_world (envs i) f i n st w
        rw [hp] at this
        exact this
      simp only [runLoop, hp, dbDelta]
      rw [ih (i + 1) st2 w2, hw2]
      simp

theorem runLoop_progress (envs : Nat → FileEnv) (n : Nat) (fs : List UFile) :
    ∀ (i : Nat) (st : AppState) (w : World), fs ≠ [] →
      (runLoop envs n i fs (st, w)).1.progress = mathRound100 (i + fs.length) n := by
  induction fs with
  | nil => intro i st w h; exact absurd rfl h
  | cons f fs ih =>
      intro i st w _
      rcases hp : processFile (envs i) f i n (st, w) with ⟨st2, w2⟩
      rcases fs with _ | ⟨g, gs⟩
      · have := processFile_progress (envs i) f i n st w
        rw [hp] at this
        simpa [runLoop, hp] using this
      · simp only [runLoop, hp]
        have := ih (i + 1) st2 w2 (by simp)
        simp only [runLoop] at this
        rw [this]
        congr 1
        simp
        omega

theorem runLoop_append (envs : Nat → FileEnv) (n : Nat) (fs : List UFile) :
    ∀ (gs : List UFile) (i : Nat) (stw : AppState × World),
      runLoop envs n i (fs ++ gs) stw
        = runLoop envs n (i + fs.length) gs (runLoop envs n i fs stw) := by
  induction fs with
  | nil => intro gs i stw; simp [runLoop]
  | cons f fs ih =>
      intro gs i stw
      show runLoop envs n (i + 1) (fs ++ gs) (processFile (envs i) f i n stw)
            = runLoop envs n (i + (f :: fs).length) gs
                (runLoop envs n (i + 1) fs (processFile (envs i) f i n stw))
      rw [ih gs (i + 1) (processFile (envs i) f i n stw)]
      have h2 : i + 1 + fs.length = i + (f :: fs).length := by simp; omega
      rw [h2]

theorem mem_dbDelta (envs : Nat → FileEnv) (fs : List UFile) :
    ∀ (i : Nat) (q : QuotationDoc), q ∈ dbDelta envs i fs →
      ∃ j f, recordOf (envs j) f = some q := by
  induction fs with
  | nil => intro i q h; simp [dbDelta] at h
  | cons f fs ih =>
      intro i q h
      simp only [dbDelta, List.mem_append] at h
      rcases h with h | h
      · exact ⟨i, f, by simpa using h⟩
      · exact ih (i + 1) q h

theorem mathRound100_eq (k n : Nat) (hn : 0 < n) :
    mathRound100 k n = (⌊(100 * (k : ℚ)) / n + 1 / 2⌋).toNat := by
  have hn' : (n : ℚ) ≠ 0 := Nat.cast_ne_zero.mpr hn.ne'
  have h1 : (100 * (k : ℚ)) / n + 1 / 2 = ((200 * k + n : ℕ) : ℚ) / ((2 * n : ℕ) : ℚ) := by
    push_cast
    field_simp
    ring
  rw [h1, Rat.floor_natCast_div_natCast, ← Int.ofNat_ediv, Int.toNat_natCast]
  rfl

end OSQuote

namespace OSQuote

theorem uploadStep_fails (e : FileEnv) (f : UFile) (h : uploadStepFails e)
    (t m : String) : ∃ r, uploadStep e f t m = .error r := by
  rcases hu : e.upload with u0 | r0
  · rcases hl : e.url with u1 | r1
    · rcases h with ⟨r, hr⟩ | ⟨r, hr⟩ | ⟨r, hr⟩
      · rw [hu] at hr; cases hr
      · rw [hl] at hr; cases hr
      · exact ⟨r, by simp [uploadStep, hu, hl, hr]⟩
    · exact ⟨r1, by simp [uploadStep, hu, hl]⟩
  · exact ⟨r0, by simp [uploadStep, hu]⟩

theorem handleUpload_db (renv : RunEnv) (st0 : AppState) (w0 : World) :
    (handleUpload renv st0 w0).world.db = w0.db ++ dbDelta renv.envs 0 st0.files := by
  show (runLoop renv.envs st0.files.length 0 st0.files (startState st0, w0)).2.db
      = w0.db ++ dbDelta renv.envs 0 st0.files
  rw [runLoop_db]

/-- C1: if the upload step (storage write, URL resolution, or database
insert) fails for a file, no QuotationRecord is created for that file,
even if extraction succeeded, and the loop goes on to the next file. -/
theorem upload_failure_creates_no_record (e : FileEnv) (f : UFile) (i n : Nat)
    (st : AppState) (w : World) (h : uploadStepFails e) :
    (processFile e f i n (st, w)).2 = w ∧ recordOf e f = none ∧
      ∀ (envs : Nat → FileEnv) (fs : List UFile) (stw : AppState × World),
        runLoop envs n i (f :: fs) stw
          = runLoop envs n (i + 1) fs (processFile (envs i) f i n stw) := by
  obtain ⟨r, hr⟩ := uploadStep_fails e f h (extractedOf e f) (errorMsgOf e f)
  have hrec : recordOf e f = none := by simp [recordOf, hr]
  refine ⟨?_, hrec, fun envs fs stw => rfl⟩
  rw [processFile_world, hrec]
  simp

theorem upload_failure_creates_no_record_witness :
    uploadStepFails cFEnvBadInsert ∧
      (processFile cFEnvBadInsert cFile 0 1 (cState, cWorld)).2 = cWorld := by
  have h : uploadStepFails cFEnvBadInsert :=
    Or.inr (Or.inr ⟨some "permission denied", rfl⟩)
  exact ⟨h, (upload_failure_creates_no_record cFEnvBadInsert cFile 0 1 cState cWorld h).1⟩

end OSQuote

namespace OSQuote

theorem jsSlice_empty (n : Nat) : jsSlice "" n = "" := by
  show String.mk (List.take n "".data) = ""
  rw [show ("".data) = ([] : List Char) from rfl, List.take_nil]

/-- C2: if extraction fails but the upload step succeeds, a record is
still created, with the error field set to the failure reason (or the
literal fallback) and an empty text summary; the state also shows the
upload phase was entered. -/
theorem extraction_failure_still_creates_record (e : FileEnv) (f : UFile)
    (i n : Nat) (st : AppState) (w : World) (r : Option String) (u : String)
    (hx : extractText e.xenv f = .rejected r)
    (hu : e.upload = .resolved ()) (hl : e.url = .resolved u)
    (hi : e.insert = .resolved ()) :
    (processFile e f i n (st, w)).2.db
        = w.db ++ [⟨none, u, f.name, f.type, e.now, "",
                     some (jsOr r "Extraction failed")⟩]
      ∧ (processFile e f i n (st, w)).1.step = "Uploading: " ++ f.name := by
  have hne : jsOr r "Extraction failed" ≠ "" :=
    jsOr_ne_empty r _ (by decide)
  have hst : uploadStep e f "" (jsOr r "Extraction failed")
      = .ok ⟨none, u, f.name, f.type, e.now, "",
              some (jsOr r "Extraction failed")⟩ := by
    simp [uploadStep, hu, hl, hi, hne, jsSlice_empty]
  constructor <;> simp [processFile, hx, uploadPhase, hst]

theorem extraction_failure_still_creates_record_witness :
    extractText cFEnvExtractFail.xenv cFile = .rejected (some "boom")
      ∧ (processFile cFEnvExtractFail cFile 0 1 (cState, cWorld)).2.db
          = cWorld.db ++ [⟨none, "https://x/u", cFile.name, cFile.type,
                            cFEnvExtractFail.now, "",
                            some (jsOr (some "boom") "Extraction failed")⟩] := by
  have hx : extractText cFEnvExtractFail.xenv cFile = .rejected (some "boom") := by decide
  exact ⟨hx, (extraction_failure_still_creates_record cFEnvExtractFail cFile 0 1
    cState cWorld (some "boom") "https://x/u" hx rfl rfl rfl).1⟩

/-- C3: every record the sequencer creates stores as extractedText the
first 600 characters of that file's extracted text, hence at most 600
characters, and the empty string when extraction failed; over a whole run
every new collection entry obeys the 600-character bound. -/
theorem summary_at_most_600_chars :
    (∀ (e : FileEnv) (f : UFile) (q : QuotationDoc), recordOf e f = some q →
        q.extractedText = jsSlice (extractedOf e f) 600
          ∧ q.extractedText.length ≤ 600)
    ∧ (∀ (e : FileEnv) (f : UFile) (r : Option String) (q : QuotationDoc),
        extractText e.xenv f = .rejected r → recordOf e f = some q →
          q.extractedText = "")
    ∧ (∀ (renv : RunEnv) (st0 : AppState) (w0 : World) (q : QuotationDoc),
        q ∈ (handleUpload renv st0 w0).world.db →
          q ∈ w0.db ∨ q.extractedText.length ≤ 600) := by
  have main : ∀ (e : FileEnv) (f : UFile) (q : QuotationDoc),
      recordOf e f = some q →
        q.extractedText = jsSlice (extractedOf e f) 600
          ∧ q.extractedText.length ≤ 600 := by
    intro e f q h
    rcases hs : uploadStep e f (extractedOf e f) (errorMsgOf e f) with r2 | q2
    · simp [recordOf, hs] at h
    · have hq : q2 = q := by simpa [recordOf, hs] using h
      obtain ⟨u, -, -, -, hrec⟩ := uploadStep_ok e f _ _ q2 hs
      subst hq
      rw [hrec]
      exact ⟨rfl, jsSlice_length_le _ _⟩
  refine ⟨main, ?_, ?_⟩
  · intro e f r q hx h
    have := (main e f q h).1
    rw [this]
    simp [extractedOf, hx, jsSlice_empty]
  · intro renv st0 w0 q hq
    rw [handleUpload_db] at hq
    rcases List.mem_append.mp hq with h | h
    · exact Or.inl h
    · obtain ⟨j, f, hj⟩ := mem_dbDelta renv.envs st0.files 0 q h
      exact Or.inr (main _ f q hj).2

theorem summary_at_most_600_chars_witness :
    cRec ∈ (handleUpload cRun cState cWorld).world.db
      ∧ (cRec ∈ cWorld.db ∨ cRec.extractedText.length ≤ 600) := by
  have h : cRec ∈ (handleUpload cRun cState cWorld).world.db := by decide
  exact ⟨h, summary_at_most_600_chars.2.2 cRun cState cWorld cRec h⟩

/-- C4: a file whose declared type is exactly application/pdf always gets
the literal placeholder immediately, whatever the engines and timeout
oracles would do. -/
theorem pdf_placeholder_immediate (e : ExtractEnv) (f : UFile)
    (h : f.type = "application/pdf") :
    extractText e f = .resolved "[PDF text extraction coming soon]" := by
  simp only [extractText, h]
  rfl

theorem pdf_placeholder_immediate_witness :
    cPdf.type = "application/pdf"
      ∧ extractText cXEnvMammothTimeout cPdf
          = .resolved "[PDF text extraction coming soon]" :=
  ⟨rfl, pdf_placeholder_immediate cXEnvMammothTimeout cPdf rfl⟩

/-- C5: whenever the fixed delay settles first, a wrapped operation fails
with exactly the timeout reason; otherwise the underlying outcome is
returned unchanged; each of the four wrapped call sites surfaces the
timeout this way, and the catch handler treats the reason like any other
extraction error message. -/
theorem timeout_race_semantics :
    (∀ (α : Type) (p : Promise α),
        withTimeout p true = Promise.rejected (some "Extraction timed out"))
    ∧ (∀ (α : Type) (p : Promise α), withTimeout p false = p)
    ∧ (∀ (e : ExtractEnv) (f : UFile), jsStartsWith f.type "image/" = true →
        e.ocrTimeout = true →
        extractText e f = .rejected (some "Extraction timed out"))
    ∧ (∀ (e : ExtractEnv) (f : UFile), f.type = docxType →
        e.bytesTimeout = true →
        extractText e f = .rejected (some "Extraction timed out"))
    ∧ (∀ (e : ExtractEnv) (f : UFile), f.type = docxType →
        e.bytesTimeout = false → e.bytes = .resolved () → e.mammothTimeout = true →
        extractText e f = .rejected (some "Extraction timed out"))
    ∧ (∀ (e : ExtractEnv) (f : UFile), jsStartsWith f.type "image/" = false →
        f.type ≠ "application/pdf" → f.type ≠ docxType →
        jsStartsWith f.type "text/" = true → e.textTimeout = true →
        extractText e f = .rejected (some "Extraction timed out"))
    ∧ (∀ (e : FileEnv) (f : UFile),
        extractText e.xenv f = .rejected (some "Extraction timed out") →
        errorMsgOf e f = "Extraction timed out") := by
  have h1 : jsStartsWith docxType "image/" = false := by decide
  have h2 : docxType ≠ "application/pdf" := by decide
  refine ⟨?_, ?_, ?_, ?_, ?_, ?_, ?_⟩
  · intro α p; simp [withTimeout, race]
  · intro α p; simp [withTimeout, race]
  · intro e f h ho; simp [extractText, h, ho, withTimeout, race]
  · intro e f h hb
    simp [extractText, h, h1, h2, hb, withTimeout, race]
  · intro e f h hb hby hm
    simp [extractText, h, h1, h2, hb, hby, hm, withTimeout, race]
  · intro e f ha hb hc hd he
    simp [extractText, ha, hb, hc, hd, he, withTimeout, race]
  · intro e f hx
    simp [errorMsgOf, hx, jsOr]

theorem timeout_race_semantics_witness :
    cDocx.type = docxType ∧
      extractText cXEnvMammothTimeout cDocx
        = .rejected (some "Extraction timed out") :=
  ⟨rfl, timeout_race_semantics.2.2.2.2.1 cXEnvMammothTimeout cDocx rfl rfl rfl rfl⟩

end OSQuote

namespace OSQuote

theorem handleUpload_fetch_resolved (renv : RunEnv) (st0 : AppState)
    (w0 : World) (h : renv.fetch = Promise.resolved ()) :
    (handleUpload renv st0 w0).state.processing = false
      ∧ (handleUpload renv st0 w0).state.files = []
      ∧ (handleUpload renv st0 w0).state.step = ""
      ∧ (handleUpload renv st0 w0).state.quotations
          = sortByUploadedDesc (handleUpload renv st0 w0).world.db
      ∧ (handleUpload renv st0 w0).uncaught = none := by
  simp [handleUpload, fetchQuotations, h]

/-- C6: after the iteration for the file at 0-based index i of an n-file
batch, the progress equals round(100*(i+1)/n) (Math.round as
floor(x + 1/2) over exact rationals), whatever each file's outcome; and
the full loop factors through that intermediate state. -/
theorem progress_formula (renv : RunEnv) (st0 : AppState) (w0 : World)
    (i : Nat) (h : i < st0.files.length) :
    (afterProcessing renv st0 w0 (i + 1)).1.progress
        = (⌊(100 * ((i : ℚ) + 1)) / (st0.files.length : ℚ) + 1 / 2⌋).toNat
      ∧ runLoop renv.envs st0.files.length 0 st0.files (startState st0, w0)
          = runLoop renv.envs st0.files.length (i + 1) (st0.files.drop (i + 1))
              (afterProcessing renv st0 w0 (i + 1)) := by
  have hlen : (st0.files.take (i + 1)).length = i + 1 := by
    simp [List.length_take]
    omega
  constructor
  · have hne : st0.files.take (i + 1) ≠ [] := by
      intro hnil
      rw [hnil] at hlen
      simp at hlen
    have := runLoop_progress renv.envs st0.files.length (st0.files.take (i + 1))
      0 (startState st0) w0 hne
    rw [afterProcessing, this, hlen, Nat.zero_add,
      mathRound100_eq (i + 1) st0.files.length (by omega)]
    push_cast
    ring_nf
  · have happ := runLoop_append renv.envs st0.files.length
      (st0.files.take (i + 1)) (st0.files.drop (i + 1)) 0 (startState st0, w0)
    rw [List.take_append_drop] at happ
    rw [happ, hlen, Nat.zero_add, afterProcessing]

theorem progress_formula_witness :
    0 < cState.files.length
      ∧ ((afterProcessing cRun cState cWorld 1).1.progress
            = (⌊(100 * ((0 : ℚ) + 1)) / (cState.files.length : ℚ) + 1 / 2⌋).toNat
          ∧ runLoop cRun.envs cState.files.length 0 cState.files
                (startState cState, cWorld)
              = runLoop cRun.envs cState.files.length 1 (cState.files.drop 1)
                  (afterProcessing cRun cState cWorld 1)) :=
  ⟨by decide, progress_formula cRun cState cWorld 0 (by decide)⟩

/-- C7 counterexample: after an all-success one-file run the numeric
progress value is not cleared; it still reads 100. -/
theorem post_loop_progress_not_cleared :
    ¬ ((handleUpload cRun cState cWorld).state.progress = 0) := by decide

/-- C7 amended: after the loop the processing flag, the step label and the
file selection are cleared, whatever each item's outcome, and when the
re-fetch resolves the display list is replaced by the sorted full record
set; the numeric progress value is not reset. -/
theorem post_loop_state_cleanup (renv : RunEnv) (st0 : AppState) (w0 : World)
    (h : renv.fetch = Promise.resolved ()) :
    (handleUpload renv st0 w0).state.processing = false
      ∧ (handleUpload renv st0 w0).state.files = []
      ∧ (handleUpload renv st0 w0).state.step = ""
      ∧ (handleUpload renv st0 w0).state.quotations
          = sortByUploadedDesc (handleUpload renv st0 w0).world.db := by
  obtain ⟨h1, h2, h3, h4, -⟩ := handleUpload_fetch_resolved renv st0 w0 h
  exact ⟨h1, h2, h3, h4⟩

theorem post_loop_state_cleanup_witness :
    cRun.fetch = Promise.resolved ()
      ∧ ((handleUpload cRun cState cWorld).state.processing = false
          ∧ (handleUpload cRun cState cWorld).state.files = []
          ∧ (handleUpload cRun cState cWorld).state.step = ""
          ∧ (handleUpload cRun cState cWorld).state.quotations
              = sortByUploadedDesc (handleUpload cRun cState cWorld).world.db) :=
  ⟨rfl, post_loop_state_cleanup cRun cState cWorld rfl⟩

/-- C8: a resolved full re-fetch yields the display list sorted by
uploadedAt descending, as a permutation of the collection contents; the
string order used is lexicographic on the character sequence; the same
holds for the list handleUpload leaves displayed. -/
theorem fetch_sorted_descending :
    (∀ (db : List QuotationDoc) (st : AppState),
        ((fetchQuotations (Promise.resolved ()) db st).1.quotations).Pairwise uploadedDesc
          ∧ ((fetchQuotations (Promise.resolved ()) db st).1.quotations).Perm db)
    ∧ (∀ (s t : String), s ≤ t ↔ s.toList ≤ t.toList)
    ∧ (∀ (renv : RunEnv) (st0 : AppState) (w0 : World),
        renv.fetch = Promise.resolved () →
          ((handleUpload renv st0 w0).state.quotations).Pairwise uploadedDesc) := by
  have hsorted : ∀ db : List QuotationDoc,
      (sortByUploadedDesc db).Pairwise uploadedDesc :=
    fun db => List.sorted_insertionSort uploadedDesc db
  refine ⟨fun db st => ⟨?_, ?_⟩, fun s t => String.le_iff_toList_le, ?_⟩
  · simpa [fetchQuotations] using hsorted db
  · simpa [fetchQuotations] using List.perm_insertionSort uploadedDesc db
  · intro renv st0 w0 h
    rw [(handleUpload_fetch_resolved renv st0 w0 h).2.2.2.1]
    exact hsorted _

end OSQuote

namespace OSQuote

theorem fetch_sorted_descending_witness :
    cRun.fetch = Promise.resolved ()
      ∧ ((handleUpload cRun cState cWorld).state.quotations).Pairwise uploadedDesc :=
  ⟨rfl, fetch_sorted_descending.2.2 cRun cState cWorld rfl⟩

/-- C9 counterexample: a run whose post-loop getDocs rejects lets that
rejection escape to the caller of handleUpload. -/
theorem fetch_failure_propagates :
    ¬ ((handleUpload cRunBad cState cWorld).uncaught = none) := by decide

/-- C9 amended: every per-file extraction or upload failure is caught
where it occurs and turned into a banner string, so when the post-loop
re-fetch resolves, nothing escapes the run, whatever the per-file
environments did; only a re-fetch rejection escapes. -/
theorem per_file_failures_never_propagate (renv : RunEnv) (st0 : AppState)
    (w0 : World) (h : renv.fetch = Promise.resolved ()) :
    (handleUpload renv st0 w0).uncaught = none :=
  (handleUpload_fetch_resolved renv st0 w0 h).2.2.2.2

theorem per_file_failures_never_propagate_witness :
    cRun.fetch = Promise.resolved ()
      ∧ (handleUpload cRun cState cWorld).uncaught = none :=
  ⟨rfl, per_file_failures_never_propagate cRun cState cWorld rfl⟩

/-- C10: the collection contents after a run are the prior contents
followed by one optional record per file, each determined by that file's
own environment and file alone; the rest of the component state at the
start of an iteration has no influence on the record written. -/
theorem per_file_isolation (renv : RunEnv) (st0 : AppState) (w0 : World) :
    (handleUpload renv st0 w0).world.db = w0.db ++ dbDelta renv.envs 0 st0.files
      ∧ ∀ (e : FileEnv) (f : UFile) (i n : Nat) (st st' : AppState) (w : World),
          (processFile e f i n (st, w)).2 = (processFile e f i n (st', w)).2 := by
  refine ⟨handleUpload_db renv st0 w0, fun e f i n st st' w => ?_⟩
  rw [processFile_world, processFile_world]

end OSQuote
